import Mathlib

/-!
Shallow embedding of `scripts/cov2ai.py` (LCOV → AI payload converter).

The Python script has three parts:
* `parse_lcov`   — a line-oriented state machine over the LCOV report text,
* `merge_ranges` — interval merging of sorted uncovered line numbers,
* `llm_payload_from_lcov` (with inner `slice_around`) — payload assembly and
  snippet extraction.

Python-level behaviour that matters to the claims is modelled explicitly:
`int()` parsing failures (ValueError), tuple-unpacking failures (ValueError,
modelled as a distinct constructor `unpackError`), subscripting `None`
(TypeError), calling a method on `None` (AttributeError), out-of-range list
indexing (IndexError), Python's left-to-right evaluation order inside
assignments (RHS before the subscripted target), dict insertion order, and
list slicing with clamping (including negative upper bounds).

File reading is modelled by a function `fs : String → Option (List String)`
mapping a path to the list of its lines (`none` = the `open` call raised).
-/

namespace Cov2AI

/-- Python exception kinds that `cov2ai.py` can raise while parsing.
`valueError lit` is `int()` failing on literal `lit`; `unpackError` is the
ValueError raised by tuple unpacking of the wrong number of parts. -/
inductive PyErr where
  | valueError (lit : String)
  | unpackError
  | typeError
  | attributeError
  | indexError
deriving DecidableEq, Repr

/-- Value of a list of ASCII digit characters, most significant first. -/
def digitsVal (cs : List Char) : Nat :=
  cs.foldl (fun a c => a * 10 + (c.toNat - 48)) 0

/-- Python `s.strip()`: remove whitespace from both ends.  (Defined on the
character list so that it is structurally recursive and kernel-computable.) -/
def pyStrip (s : String) : String :=
  String.mk (((s.toList.dropWhile Char.isWhitespace).reverse.dropWhile
      Char.isWhitespace).reverse)

/-- Python `s.startswith(pre)`. -/
def pyStartsWith (s pre : String) : Bool :=
  pre.toList.isPrefixOf s.toList

/-- Python `s.endswith(suf)`. -/
def pyEndsWith (s suf : String) : Bool :=
  suf.toList.isSuffixOf s.toList

/-- `s[n:]` for a non-negative character count `n`. -/
def pyDrop (s : String) (n : Nat) : String :=
  String.mk (s.toList.drop n)

/-- Python `int(s)`: strips surrounding whitespace, allows one optional sign,
then requires a nonempty run of decimal digits.  (Digit-group underscores and
non-ASCII digits are not modelled; no input in this development uses them.)
On failure the offending literal is carried in the error, as Python's
`ValueError: invalid literal for int() ...` message does. -/
def pyInt (s : String) : Except PyErr Int :=
  match (pyStrip s).toList with
  | '-' :: rest =>
    if rest ≠ [] ∧ rest.all Char.isDigit then Except.ok (-(digitsVal rest : Int))
    else Except.error (PyErr.valueError s)
  | '+' :: rest =>
    if rest ≠ [] ∧ rest.all Char.isDigit then Except.ok (digitsVal rest : Int)
    else Except.error (PyErr.valueError s)
  | cs =>
    if cs ≠ [] ∧ cs.all Char.isDigit then Except.ok (digitsVal cs : Int)
    else Except.error (PyErr.valueError s)

/-- Split off everything before the first occurrence of `sep`;
`none` when `sep` does not occur. -/
def splitFirst (sep : Char) : List Char → Option (List Char × List Char)
  | [] => none
  | c :: cs =>
    if c = sep then some ([], cs)
    else match splitFirst sep cs with
      | none => none
      | some (a, b) => some (c :: a, b)

/-- Python `str.split(sep, maxsplit)` on character lists: at most `maxsplit`
splits, remainder kept whole.  Always returns a nonempty list. -/
def pySplitCore (sep : Char) : Nat → List Char → List (List Char)
  | 0, cs => [cs]
  | Nat.succ n, cs =>
    match splitFirst sep cs with
    | none => [cs]
    | some (a, b) => a :: pySplitCore sep n b

/-- Python `s.split(sep, maxsplit)` for a single-character separator. -/
def pySplit (s : String) (sep : Char) (maxsplit : Nat) : List String :=
  (pySplitCore sep maxsplit s.toList).map (fun cs => String.mk cs)

/-- Python `s.split(sep)` (unlimited splits): `s.toList.length` splits suffice
because every split consumes one separator character. -/
def pySplitAll (s : String) (sep : Char) : List String :=
  (pySplitCore sep s.toList.length s.toList).map (fun cs => String.mk cs)

/-- Python dict assignment `d[k] = v` on an insertion-ordered association
list: an existing key keeps its position and gets the new value, a new key is
appended at the end. -/
def dictInsert {α β : Type} [DecidableEq α] (d : List (α × β)) (k : α) (v : β) :
    List (α × β) :=
  match d with
  | [] => [(k, v)]
  | p :: rest => if p.1 = k then (k, v) :: rest else p :: dictInsert rest k v

/-- Python `d.get(k)` on an insertion-ordered association list. -/
def dictGet {α β : Type} [DecidableEq α] (d : List (α × β)) (k : α) : Option β :=
  match d with
  | [] => none
  | p :: rest => if p.1 = k then some p.2 else dictGet rest k

/-- One `BRDA:` observation: `{'line': …, 'block': …, 'branch': …, 'hits': …}`. -/
structure Branch where
  line : Int
  block : Int
  branch : Int
  hits : Int
deriving DecidableEq, Repr

/-- One per-file coverage record, as built by `parse_lcov`.
In Python `fn_defs` is a key created lazily by `setdefault`; an absent key and
an empty dict are observationally identical here (both read through
`f.get('fn_defs', {})`), so it is modelled as a list that starts empty. -/
structure Record where
  file : String
  lines : List (Int × Int)
  functions : List (String × Int)
  fn_defs : List (String × Int)
  branches : List Branch
deriving DecidableEq, Repr

/-- `{'file': path, 'lines': {}, 'functions': {}, 'branches': []}`. -/
def newRecord (path : String) : Record :=
  { file := path, lines := [], functions := [], fn_defs := [], branches := [] }

/-- Loop state of `parse_lcov`: the `files` list built so far and the
currently open record (`cur`), `none` when no record is open. -/
structure PState where
  files : List Record
  cur : Option Record
deriving DecidableEq, Repr

def initState : PState := { files := [], cur := none }

/-- `DA:` handling: `parts = rest.split(',', 2); ln, hits = parts[0], parts[1];
cur['lines'][int(ln)] = int(hits)`.  Evaluation order is Python's: `parts[1]`
may raise IndexError; then the RHS `int(hits)`, then the target `cur['lines']`
(TypeError when no record is open), then the key `int(ln)`. -/
def stepDA (st : PState) (rest : String) : Except PyErr PState :=
  match (pySplit rest ',' 2)[1]? with
  | none => Except.error PyErr.indexError
  | some hitsS =>
    match pyInt hitsS with
    | Except.error e => Except.error e
    | Except.ok hits =>
      match st.cur with
      | none => Except.error PyErr.typeError
      | some c =>
        match pyInt ((pySplit rest ',' 2).headD "") with
        | Except.error e => Except.error e
        | Except.ok ln =>
          Except.ok { st with cur := some { c with lines := dictInsert c.lines ln hits } }

/-- `FN:` handling: `fn_line_str, fn_name = s.split(',', 1)` (unpack may raise
ValueError), then `int(fn_line_str)`, then `cur.setdefault(...)` which raises
AttributeError when no record is open. -/
def stepFN (st : PState) (s : String) : Except PyErr PState :=
  match pySplit s ',' 1 with
  | [fnLineS, fnName] =>
    (match pyInt fnLineS with
     | Except.error e => Except.error e
     | Except.ok fnLine =>
       match st.cur with
       | none => Except.error PyErr.attributeError
       | some c =>
         Except.ok { st with cur := some { c with fn_defs := dictInsert c.fn_defs fnName fnLine } })
  | _ => Except.error PyErr.unpackError

/-- `FNDA:` handling: `hits, fn_name = rest.split(',', 1)` (unpack), then the
RHS `int(hits)`, then the target `cur['functions']` (TypeError on `None`). -/
def stepFNDA (st : PState) (rest : String) : Except PyErr PState :=
  match pySplit rest ',' 1 with
  | [hitsS, fnName] =>
    (match pyInt hitsS with
     | Except.error e => Except.error e
     | Except.ok hits =>
       match st.cur with
       | none => Except.error PyErr.typeError
       | some c =>
         Except.ok { st with cur := some { c with functions := dictInsert c.functions fnName hits } })
  | _ => Except.error PyErr.unpackError

/-- `BRDA:` handling: `l, b, br, hits = rest.split(',')` (exactly four parts or
ValueError), then `cur['branches']` is evaluated (TypeError on `None`) before
the argument dict, whose fields evaluate `int(l)`, `int(b)`, `int(br)`, and
finally `0 if hits in ('0', '-') else int(hits)`. -/
def stepBRDA (st : PState) (rest : String) : Except PyErr PState :=
  match pySplitAll rest ',' with
  | [lS, bS, brS, hitsS] =>
    (match st.cur with
     | none => Except.error PyErr.typeError
     | some c =>
       match pyInt lS with
       | Except.error e => Except.error e
       | Except.ok l =>
         match pyInt bS with
         | Except.error e => Except.error e
         | Except.ok b =>
           match pyInt brS with
           | Except.error e => Except.error e
           | Except.ok br =>
             match (if hitsS = "0" ∨ hitsS = "-" then Except.ok (0 : Int) else pyInt hitsS) with
             | Except.error e => Except.error e
             | Except.ok hits =>
               Except.ok { st with cur := some { c with branches :=
                 c.branches ++ [{ line := l, block := b, branch := br, hits := hits }] } })
  | _ => Except.error PyErr.unpackError

/-- One iteration of the `for line in f` loop of `parse_lcov`: strip the line,
dispatch on its prefix.  `TN:` is skipped; `SF:` flushes any open record and
opens a new one; `end_of_record` flushes and clears; unrecognized lines are
ignored. -/
def parseStep (st : PState) (raw : String) : Except PyErr PState :=
  if pyStartsWith (pyStrip raw) "TN:" then Except.ok st
  else if pyStartsWith (pyStrip raw) "SF:" then
    Except.ok { files := st.files ++ st.cur.toList,
                cur := some (newRecord (pyDrop (pyStrip raw) 3)) }
  else if pyStartsWith (pyStrip raw) "DA:" then stepDA st (pyDrop (pyStrip raw) 3)
  else if pyStartsWith (pyStrip raw) "FN:" then stepFN st (pyDrop (pyStrip raw) 3)
  else if pyStartsWith (pyStrip raw) "FNDA:" then stepFNDA st (pyDrop (pyStrip raw) 5)
  else if pyStartsWith (pyStrip raw) "BRDA:" then stepBRDA st (pyDrop (pyStrip raw) 5)
  else if pyStrip raw = "end_of_record" then
    Except.ok { files := st.files ++ st.cur.toList, cur := none }
  else Except.ok st

/-- The `for line in f` loop: run `parseStep` over the lines in order,
aborting on the first Python exception. -/
def parseLines (st : PState) : List String → Except PyErr PState
  | [] => Except.ok st
  | raw :: rest =>
    match parseStep st raw with
    | Except.error e => Except.error e
    | Except.ok st' => parseLines st' rest

/-- `parse_lcov`: fold the per-line step over the report's lines; at end of
input a still-open record is flushed (`if cur: files.append(cur)`). -/
def parse_lcov (report : List String) : Except PyErr (List Record) :=
  match parseLines initState report with
  | Except.error e => Except.error e
  | Except.ok st => Except.ok (st.files ++ st.cur.toList)

/-- One step of the `merge_ranges` loop, with the ranges list kept in reverse
(most recently created range first, so Python's `ranges[-1]` is the head):
`if not ranges or ln > ranges[-1][1] + 1: ranges.append([ln, ln])
 else: ranges[-1][1] = ln`. -/
def mergeStep (ranges : List (Int × Int)) (ln : Int) : List (Int × Int) :=
  match ranges with
  | [] => [(ln, ln)]
  | r :: rs => if r.2 + 1 < ln then (ln, ln) :: r :: rs else (r.1, ln) :: rs

/-- `merge_ranges(lines)`: iterate over `sorted(lines)` accumulating maximal
runs, then undo the reverse-accumulator representation.  `sorted` is modelled
by `List.insertionSort` (any correct ascending sort; stability is irrelevant
for integers). -/
def merge_ranges (lines : List Int) : List (Int × Int) :=
  ((lines.insertionSort (· ≤ ·)).foldl mergeStep []).reverse

/-- Python list slicing `l[lo:hi]` with integer bounds: a negative bound
counts from the end, and both bounds are clamped to `[0, len(l)]`. -/
def pySlice {α : Type} (l : List α) (lo hi : Int) : List α :=
  let n : Int := l.length
  let lo' : Int := if lo < 0 then max 0 (n + lo) else min lo n
  let hi' : Int := if hi < 0 then max 0 (n + hi) else min hi n
  (l.drop lo'.toNat).take (hi' - lo').toNat

/-- An entry of `unexecuted_functions`: `{'name': …, 'line': …}` where the
line is the `fn_defs` lookup result (`None` when absent). -/
structure UnexecFunc where
  name : String
  line : Option Int
deriving DecidableEq, Repr

/-- A snippet dict: `{'type': 'lines', 'range': r, 'code': …}` or
`{'type': 'function', 'name': …, 'line': …, 'code': …}`. -/
inductive Snippet where
  | lines (range : Int × Int) (code : String)
  | function (name : String) (line : Int) (code : String)
deriving DecidableEq, Repr

/-- The `code` field of a snippet dict. -/
def Snippet.code : Snippet → String
  | Snippet.lines _ c => c
  | Snippet.function _ _ c => c

/-- Python truthiness of `uf['line']`: `None` and `0` are falsy. -/
def pyTruthy (o : Option Int) : Bool :=
  match o with
  | none => false
  | some n => n != 0

/-- The inner `slice_around(start, end)` closure: `if not code: return ""`
(both the unread sentinel `''` and an empty line list are falsy), otherwise
`''.join(code[max(0, start-1-context_lines) : min(len(code), end+context_lines)])`. -/
def slice_around (code : Option (List String)) (context_lines s e : Int) : String :=
  match code with
  | none => ""
  | some cs =>
    if cs = [] then ""
    else String.join (pySlice cs (max 0 (s - 1 - context_lines))
                               (min (cs.length : Int) (e + context_lines)))

/-- `os.path.join(root, p)` for the cases that arise here: an absolute second
component wins; an empty root contributes nothing; otherwise the components
are joined with a separator unless the root already ends in one. -/
def pyJoin (root p : String) : String :=
  if pyStartsWith p "/" then p
  else if root = "" then p
  else if pyEndsWith root "/" then root ++ p
  else root ++ "/" ++ p

/-- One payload dict of the output list. -/
structure Payload where
  file : String
  uncovered_ranges : List (Int × Int)
  uncovered_branches : List (Int × Int)
  unexecuted_functions : List UnexecFunc
  snippets : List Snippet
deriving DecidableEq, Repr

/-- `[ln for ln, hits in f['lines'].items() if hits == 0]`. -/
def uncoveredLinesOf (f : Record) : List Int :=
  f.lines.filterMap (fun p => if p.2 = 0 then some p.1 else none)

/-- The `unexec_funcs` loop: zero-hit functions paired with their
`f.get('fn_defs', {}).get(name)` lookup, in `functions` iteration order. -/
def unexecFuncsOf (f : Record) : List UnexecFunc :=
  f.functions.foldl
    (fun acc p => if p.2 = 0 then acc ++ [{ name := p.1, line := dictGet f.fn_defs p.1 }] else acc)
    []

/-- The `uncovered_branches` loop: zero-hit branch observations reduced to
`{'line': …, 'branch': …}` (block index dropped), in report order. -/
def uncoveredBranchesOf (branches : List Branch) : List (Int × Int) :=
  branches.foldl (fun acc br => if br.hits = 0 then acc ++ [(br.line, br.branch)] else acc) []

/-- The two snippet loops, in their fixed order: one `lines` snippet per
uncovered range, then one `function` snippet per unexecuted function whose
`line` field is truthy (`if uf['line']:`). -/
def snippetsOf (code : Option (List String)) (context_lines : Int)
    (ranges : List (Int × Int)) (ufs : List UnexecFunc) : List Snippet :=
  ranges.foldl
    (fun acc r => acc ++ [Snippet.lines r (slice_around code context_lines r.1 r.2)])
    []
  ++ ufs.foldl
    (fun acc uf =>
      if pyTruthy uf.line then
        acc ++ [Snippet.function uf.name (uf.line.getD 0)
                  (slice_around code context_lines (uf.line.getD 0) (uf.line.getD 0 + 1))]
      else acc)
    []

/-- The body of the `for f in files` loop of `llm_payload_from_lcov`:
assemble one payload from one coverage record.  `fs` models the filesystem
(`none` = the `open`/`readlines` raised and the `except` clause left `code`
empty). -/
def buildPayload (fs : String → Option (List String)) (repo_root : String)
    (context_lines : Int) (f : Record) : Payload :=
  let uncovered_ranges := merge_ranges (uncoveredLinesOf f)
  let unexec_funcs := unexecFuncsOf f
  let code := fs (pyJoin repo_root f.file)
  { file := f.file
    uncovered_ranges := uncovered_ranges
    uncovered_branches := uncoveredBranchesOf f.branches
    unexecuted_functions := unexec_funcs
    snippets := snippetsOf code context_lines uncovered_ranges unexec_funcs }

/-- `llm_payload_from_lcov`: parse the report, then map payload assembly over
every record.  A parse failure propagates (Python: the exception aborts the
whole call). -/
def llm_payload_from_lcov (report : List String) (fs : String → Option (List String))
    (repo_root : String) (context_lines : Int) : Except PyErr (List Payload) := do
  let files ← parse_lcov report
  Except.ok (files.map (buildPayload fs repo_root context_lines))

/-- `x` lies in one of the inclusive ranges of `rs`. -/
def inRanges (rs : List (Int × Int)) (x : Int) : Prop :=
  ∃ r ∈ rs, r.1 ≤ x ∧ x ≤ r.2

theorem inRanges_nil (x : Int) : inRanges [] x ↔ False := by
  simp [inRanges]

theorem inRanges_cons (r : Int × Int) (rs : List (Int × Int)) (x : Int) :
    inRanges (r :: rs) x ↔ (r.1 ≤ x ∧ x ≤ r.2) ∨ inRanges rs x := by
  constructor
  · rintro ⟨q, hq, h1, h2⟩
    rcases List.mem_cons.mp hq with h | h
    · subst h; exact Or.inl ⟨h1, h2⟩
    · exact Or.inr ⟨q, h, h1, h2⟩
  · rintro (⟨h1, h2⟩ | ⟨q, hq, h1, h2⟩)
    · exact ⟨r, List.mem_cons_self _ _, h1, h2⟩
    · exact ⟨q, List.mem_cons_of_mem _ hq, h1, h2⟩

/-- Invariant of the `merge_ranges` loop, on the reversed accumulator: every
range is well-formed, consecutive accumulator entries are separated by a gap
(the newer range starts strictly past the older range's end plus one), and
the accumulated coverage grows exactly by the processed elements.  Proved by
induction on the remaining sorted input. -/
theorem foldl_mergeStep_inv (l : List Int) : ∀ acc : List (Int × Int),
    l.Sorted (· ≤ ·) →
    (∀ r ∈ acc, r.1 ≤ r.2) →
    acc.Chain' (fun r r' => r'.2 + 1 < r.1) →
    (∀ x ∈ l, ∀ r ∈ acc.head?, r.2 ≤ x) →
    (∀ r ∈ l.foldl mergeStep acc, r.1 ≤ r.2) ∧
    (l.foldl mergeStep acc).Chain' (fun r r' => r'.2 + 1 < r.1) ∧
    (∀ x : Int, inRanges (l.foldl mergeStep acc) x ↔ inRanges acc x ∨ x ∈ l) := by
  induction l with
  | nil =>
    intro acc _ hwf hch _
    refine ⟨hwf, hch, fun x => ?_⟩
    simp
  | cons ln rest ih =>
    intro acc hsort hwf hch hbd
    have hsort' : rest.Sorted (· ≤ ·) := hsort.of_cons
    have hln_le : ∀ x ∈ rest, ln ≤ x := fun x hx => List.rel_of_sorted_cons hsort x hx
    rw [List.foldl_cons]
    rcases acc with _ | ⟨r, rs⟩
    · have hms : mergeStep [] ln = [(ln, ln)] := rfl
      rw [hms]
      have hres := ih [(ln, ln)] hsort'
        (by intro q hq; simp at hq; subst hq; exact le_refl _)
        (by simp)
        (by intro x hx q hq; simp at hq; subst hq; exact hln_le x hx)
      refine ⟨hres.1, hres.2.1, fun x => ?_⟩
      rw [hres.2.2 x, inRanges_cons, inRanges_nil, List.mem_cons]
      have hxx : ((ln, ln).1 ≤ x ∧ x ≤ (ln, ln).2) ↔ x = ln := by
        simp only []
        omega
      rw [hxx]
      tauto
    · by_cases hgap : r.2 + 1 < ln
      · have hms : mergeStep (r :: rs) ln = (ln, ln) :: r :: rs := by
          simp [mergeStep, hgap]
        rw [hms]
        have hwf' : ∀ q ∈ (ln, ln) :: r :: rs, q.1 ≤ q.2 := by
          intro q hq
          rcases List.mem_cons.mp hq with h | h
          · subst h; exact le_refl _
          · exact hwf q h
        have hch' : ((ln, ln) :: r :: rs).Chain' (fun a b => b.2 + 1 < a.1) :=
          List.Chain'.cons hgap hch
        have hbd' : ∀ x ∈ rest, ∀ q ∈ ((ln, ln) :: r :: rs).head?, q.2 ≤ x := by
          intro x hx q hq
          simp at hq
          subst hq
          exact hln_le x hx
        have hres := ih _ hsort' hwf' hch' hbd'
        refine ⟨hres.1, hres.2.1, fun x => ?_⟩
        rw [hres.2.2 x, inRanges_cons, List.mem_cons]
        have hxx : ((ln, ln).1 ≤ x ∧ x ≤ (ln, ln).2) ↔ x = ln := by
          simp only []
          omega
        rw [hxx]
        tauto
      · have hms : mergeStep (r :: rs) ln = (r.1, ln) :: rs := by
          simp [mergeStep, hgap]
        rw [hms]
        have hr_end : r.2 ≤ ln := hbd ln (List.mem_cons_self _ _) r (by simp)
        have hr_wf : r.1 ≤ r.2 := hwf r (List.mem_cons_self _ _)
        have hwf' : ∀ q ∈ (r.1, ln) :: rs, q.1 ≤ q.2 := by
          intro q hq
          rcases List.mem_cons.mp hq with h | h
          · subst h; exact le_trans hr_wf hr_end
          · exact hwf q (List.mem_cons_of_mem _ h)
        have hch' : ((r.1, ln) :: rs).Chain' (fun a b => b.2 + 1 < a.1) := by
          rcases rs with _ | ⟨q, qs⟩
          · simp
          · have hcc := List.chain'_cons.mp hch
            exact List.Chain'.cons hcc.1 hcc.2
        have hbd' : ∀ x ∈ rest, ∀ q ∈ ((r.1, ln) :: rs).head?, q.2 ≤ x := by
          intro x hx q hq
          simp at hq
          subst hq
          exact hln_le x hx
        have hres := ih _ hsort' hwf' hch' hbd'
        refine ⟨hres.1, hres.2.1, fun x => ?_⟩
        rw [hres.2.2 x, inRanges_cons, inRanges_cons, List.mem_cons]
        have key : ((r.1, ln).1 ≤ x ∧ x ≤ (r.1, ln).2) ↔
            (r.1 ≤ x ∧ x ≤ r.2) ∨ x = ln := by
          simp only []
          omega
        rw [key]
        tauto

/-- A gap-separated chain of well-formed ranges is pairwise gap-separated. -/
theorem chain_gap_pairwise : ∀ rs : List (Int × Int),
    (∀ r ∈ rs, r.1 ≤ r.2) →
    rs.Chain' (fun r r' => r.2 + 1 < r'.1) →
    rs.Pairwise (fun r r' => r.2 + 1 < r'.1) := by
  intro rs
  induction rs with
  | nil => intro _ _; exact List.Pairwise.nil
  | cons r rs ih =>
    intro hwf hch
    have hch' : rs.Chain' (fun r r' => r.2 + 1 < r'.1) := hch.tail
    have hp : rs.Pairwise (fun r r' => r.2 + 1 < r'.1) :=
      ih (fun q hq => hwf q (List.mem_cons_of_mem _ hq)) hch'
    refine List.Pairwise.cons ?_ hp
    intro q hq
    rcases rs with _ | ⟨q0, qs⟩
    · simp at hq
    · have h0 : r.2 + 1 < q0.1 := (List.chain'_cons.mp hch).1
      rcases List.mem_cons.mp hq with h | h
      · subst h; exact h0
      · have h01 : q0.1 ≤ q0.2 := hwf q0 (by simp)
        have : q0.2 + 1 < q.1 := by
          have hpq := List.pairwise_cons.mp hp
          exact hpq.1 q h
        omega

/-- Coverage is insensitive to the order of the range list. -/
theorem inRanges_reverse (rs : List (Int × Int)) (x : Int) :
    inRanges rs.reverse x ↔ inRanges rs x := by
  simp [inRanges]

/-- C1: for every finite set of non-negative integer line numbers given to
`merge_ranges`, the returned list of inclusive ranges is sorted ascending by
start, pairwise disjoint, every range satisfies start ≤ end, no two adjacent
ranges satisfy nextStart ≤ prevEnd + 1 (maximality), the union of the covered
line numbers equals the input set exactly, and the empty set yields the empty
list. -/
theorem merge_ranges_correct (lines : List Int) (hnn : ∀ x ∈ lines, 0 ≤ x) :
    (merge_ranges lines).Pairwise (fun r r' => r.1 < r'.1) ∧
    (merge_ranges lines).Pairwise
      (fun r r' => ∀ x : Int, ¬((r.1 ≤ x ∧ x ≤ r.2) ∧ (r'.1 ≤ x ∧ x ≤ r'.2))) ∧
    (∀ r ∈ merge_ranges lines, r.1 ≤ r.2) ∧
    (merge_ranges lines).Chain' (fun r r' => ¬(r'.1 ≤ r.2 + 1)) ∧
    (∀ x : Int, inRanges (merge_ranges lines) x ↔ x ∈ lines) ∧
    (lines = [] → merge_ranges lines = []) := by
  have hinv := foldl_mergeStep_inv (lines.insertionSort (· ≤ ·)) []
    (List.sorted_insertionSort _ _) (by simp) (by simp) (by simp)
  obtain ⟨hwf, hch, hcov⟩ := hinv
  have hwf' : ∀ r ∈ merge_ranges lines, r.1 ≤ r.2 := by
    intro r hr
    rw [merge_ranges, List.mem_reverse] at hr
    exact hwf r hr
  have hchain' : (merge_ranges lines).Chain' (fun r r' => r.2 + 1 < r'.1) := by
    rw [merge_ranges]
    exact List.chain'_reverse.mpr hch
  have hpair : (merge_ranges lines).Pairwise (fun r r' => r.2 + 1 < r'.1) :=
    chain_gap_pairwise _ hwf' hchain'
  refine ⟨?_, ?_, hwf', ?_, ?_, fun h => by rw [h]; rfl⟩
  · refine hpair.imp_of_mem ?_
    intro a b ha hb hab
    have := hwf' a ha
    omega
  · refine hpair.imp ?_
    intro a b hab x hx
    omega
  · refine hchain'.imp ?_
    intro a b hab
    omega
  · intro x
    rw [merge_ranges, inRanges_reverse, hcov x, inRanges_nil, List.mem_insertionSort]
    tauto

/-- Witness for C1 at the concrete input `[5, 1, 2, 7, 3]`. -/
theorem merge_ranges_correct_witness :
    (∀ x ∈ [(5 : Int), 1, 2, 7, 3], 0 ≤ x) ∧
    (∀ x : Int, inRanges (merge_ranges [5, 1, 2, 7, 3]) x ↔ x ∈ [(5 : Int), 1, 2, 7, 3]) :=
  ⟨by decide, (merge_ranges_correct [5, 1, 2, 7, 3] (by decide)).2.2.2.2.1⟩

/-- The source-file path opened by a report line, if it is an `SF:` line
(mirrors the dispatch order of `parseStep`: `TN:` is checked first). -/
def sfPath? (raw : String) : Option String :=
  if pyStartsWith (pyStrip raw) "TN:" then none
  else if pyStartsWith (pyStrip raw) "SF:" then some (pyDrop (pyStrip raw) 3)
  else none

/-- A successful `DA:` step leaves `files` unchanged and keeps the open
record's path. -/
theorem stepDA_shape (st : PState) (rest : String) (st' : PState)
    (h : stepDA st rest = Except.ok st') :
    st'.files = st.files ∧ st'.cur.map Record.file = st.cur.map Record.file := by
  unfold stepDA at h
  repeat' split at h
  all_goals cases h
  all_goals simp_all

/-- A successful `FN:` step leaves `files` unchanged and keeps the open
record's path. -/
theorem stepFN_shape (st : PState) (s : String) (st' : PState)
    (h : stepFN st s = Except.ok st') :
    st'.files = st.files ∧ st'.cur.map Record.file = st.cur.map Record.file := by
  unfold stepFN at h
  repeat' split at h
  all_goals cases h
  all_goals simp_all

/-- A successful `FNDA:` step leaves `files` unchanged and keeps the open
record's path. -/
theorem stepFNDA_shape (st : PState) (rest : String) (st' : PState)
    (h : stepFNDA st rest = Except.ok st') :
    st'.files = st.files ∧ st'.cur.map Record.file = st.cur.map Record.file := by
  unfold stepFNDA at h
  repeat' split at h
  all_goals cases h
  all_goals simp_all

/-- A successful `BRDA:` step leaves `files` unchanged and keeps the open
record's path. -/
theorem stepBRDA_shape (st : PState) (rest : String) (st' : PState)
    (h : stepBRDA st rest = Except.ok st') :
    st'.files = st.files ∧ st'.cur.map Record.file = st.cur.map Record.file := by
  unfold stepBRDA at h
  repeat' split at h
  all_goals cases h
  all_goals simp_all

/-- One successful `parseStep` extends the flushed-plus-open list of record
paths by exactly the `SF:` path of the consumed line (if any). -/
theorem parseStep_files (st : PState) (raw : String) (st' : PState)
    (h : parseStep st raw = Except.ok st') :
    st'.files.map Record.file ++ st'.cur.toList.map Record.file
      = st.files.map Record.file ++ st.cur.toList.map Record.file
        ++ (sfPath? raw).toList := by
  have optFileEq : ∀ o o' : Option Record,
      o'.map Record.file = o.map Record.file →
      o'.toList.map Record.file = o.toList.map Record.file := by
    intro o o' ho
    cases o <;> cases o' <;> simp_all
  unfold parseStep at h
  unfold sfPath?
  split_ifs at h with h1 h2 h3 h4 h5 h6 h7
  · cases h; simp [h1]
  · cases h; simp [h1, h2, newRecord]
  · have hs := stepDA_shape st _ st' h
    rw [hs.1, optFileEq _ _ hs.2]
    simp [h1, h2]
  · have hs := stepFN_shape st _ st' h
    rw [hs.1, optFileEq _ _ hs.2]
    simp [h1, h2]
  · have hs := stepFNDA_shape st _ st' h
    rw [hs.1, optFileEq _ _ hs.2]
    simp [h1, h2]
  · have hs := stepBRDA_shape st _ st' h
    rw [hs.1, optFileEq _ _ hs.2]
    simp [h1, h2]
  · cases h; simp [h1, h2]
  · cases h; simp [h1, h2]

/-- Running the loop accumulates exactly the `SF:` paths of the consumed
lines, in order, behind the paths already held by the state. -/
theorem parseLines_files (input : List String) : ∀ st st',
    parseLines st input = Except.ok st' →
    st'.files.map Record.file ++ st'.cur.toList.map Record.file
      = st.files.map Record.file ++ st.cur.toList.map Record.file
        ++ input.filterMap sfPath? := by
  induction input with
  | nil =>
    intro st st' h
    cases h
    simp
  | cons raw rest ih =>
    intro st st' h
    unfold parseLines at h
    split at h
    · exact absurd h (by simp)
    · rename_i st1 hstep
      have h1 := parseStep_files st raw st1 hstep
      have h2 := ih st1 st' h
      rw [h2, h1]
      rcases hsf : sfPath? raw with _ | p <;> simp [hsf, List.filterMap_cons]

/-- C2: for every LCOV report containing two `SF:` sections and no
`end_of_record` lines at all, `parse_lcov` returns both sections as two
separate records, in report order: an open record is flushed when the next
`SF:` line is seen, and a record still open at end of input is also
flushed. -/
theorem parse_lcov_two_sf (report : List String) (p1 p2 : String) (recs : List Record)
    (hsf : report.filterMap sfPath? = [p1, p2])
    (hnoeor : ∀ l ∈ report, pyStrip l ≠ "end_of_record")
    (hok : parse_lcov report = Except.ok recs) :
    recs.map Record.file = [p1, p2] := by
  unfold parse_lcov at hok
  split at hok
  · exact absurd hok (by simp)
  · rename_i st hrun
    cases hok
    have h := parseLines_files report initState st hrun
    simp [initState] at h
    rw [List.map_append, h, hsf]

/-- Witness for C2 on a concrete two-section report without
`end_of_record` markers. -/
theorem parse_lcov_two_sf_witness :
    ((["SF:a.c", "DA:1,1", "SF:b.c", "DA:2,0"].filterMap sfPath?) = ["a.c", "b.c"]) ∧
    (∀ l ∈ ["SF:a.c", "DA:1,1", "SF:b.c", "DA:2,0"], pyStrip l ≠ "end_of_record") ∧
    (∃ recs, parse_lcov ["SF:a.c", "DA:1,1", "SF:b.c", "DA:2,0"] = Except.ok recs ∧
      recs.map Record.file = ["a.c", "b.c"]) := by
  have hok : parse_lcov ["SF:a.c", "DA:1,1", "SF:b.c", "DA:2,0"] = Except.ok
      [{ file := "a.c", lines := [(1, 1)], functions := [], fn_defs := [], branches := [] },
       { file := "b.c", lines := [(2, 0)], functions := [], fn_defs := [], branches := [] }] := by
    rfl
  exact ⟨by decide, by decide,
    ⟨_, hok, parse_lcov_two_sf _ "a.c" "b.c" _ (by decide) (by decide) hok⟩⟩

/-- Splitting the loop: the lines after a failure are never reached, the
lines after a success continue from the reached state. -/
theorem parseLines_append (l1 : List String) : ∀ (st : PState) (l2 : List String),
    parseLines st (l1 ++ l2)
      = match parseLines st l1 with
        | Except.error e => Except.error e
        | Except.ok st' => parseLines st' l2 := by
  induction l1 with
  | nil =>
    intro st l2
    simp [parseLines]
  | cons raw rest ih =>
    intro st l2
    have hL : parseLines st (raw :: (rest ++ l2))
        = (match parseStep st raw with
           | Except.error e => Except.error e
           | Except.ok st' => parseLines st' (rest ++ l2)) := rfl
    have hR : parseLines st (raw :: rest)
        = (match parseStep st raw with
           | Except.error e => Except.error e
           | Except.ok st' => parseLines st' rest) := rfl
    rw [List.cons_append, hL, hR]
    cases parseStep st raw with
    | error e => rfl
    | ok st1 => exact ih st1 l2

/-- One failing step aborts the whole parse with that step's exception:
no record list is produced and the remaining lines are never consumed. -/
theorem parse_lcov_error_of_step (pre post : List String) (st : PState)
    (bad : String) (e : PyErr)
    (hpre : parseLines initState pre = Except.ok st)
    (hstep : parseStep st bad = Except.error e) :
    parse_lcov (pre ++ bad :: post) = Except.error e := by
  unfold parse_lcov
  rw [parseLines_append, hpre]
  unfold parseLines
  rw [hstep]

/-- C3: a malformed numeric field in any recognized LCOV tag fails the whole
parse with the ValueError identifying the offending literal of that line, and
no partial output is produced.  One conjunct per field, following Python's
evaluation order: the `DA:` hit count (RHS, evaluated before the record dict,
so no open record is required), the `DA:` line number (after the hit count
and the `cur` subscript), the `FN:` line number (before `cur.setdefault`),
the `FNDA:` hit count (RHS, before the `cur` subscript), and the four `BRDA:`
fields (after the `cur['branches']` lookup, left to right, the hits field
only when it is neither `0` nor `-`). -/
theorem parse_lcov_malformed_field :
    (∀ (pre post : List String) (st : PState) (bad hitsS : String),
      parseLines initState pre = Except.ok st →
      pyStartsWith (pyStrip bad) "TN:" = false →
      pyStartsWith (pyStrip bad) "SF:" = false →
      pyStartsWith (pyStrip bad) "DA:" = true →
      (pySplit (pyDrop (pyStrip bad) 3) ',' 2)[1]? = some hitsS →
      pyInt hitsS = Except.error (PyErr.valueError hitsS) →
      parse_lcov (pre ++ bad :: post) = Except.error (PyErr.valueError hitsS)) ∧
    (∀ (pre post : List String) (st : PState) (c : Record) (bad hitsS lnS : String)
        (hits : Int),
      parseLines initState pre = Except.ok st →
      pyStartsWith (pyStrip bad) "TN:" = false →
      pyStartsWith (pyStrip bad) "SF:" = false →
      pyStartsWith (pyStrip bad) "DA:" = true →
      (pySplit (pyDrop (pyStrip bad) 3) ',' 2)[1]? = some hitsS →
      pyInt hitsS = Except.ok hits →
      st.cur = some c →
      (pySplit (pyDrop (pyStrip bad) 3) ',' 2).headD "" = lnS →
      pyInt lnS = Except.error (PyErr.valueError lnS) →
      parse_lcov (pre ++ bad :: post) = Except.error (PyErr.valueError lnS)) ∧
    (∀ (pre post : List String) (st : PState) (bad fnLineS fnName : String),
      parseLines initState pre = Except.ok st →
      pyStartsWith (pyStrip bad) "TN:" = false →
      pyStartsWith (pyStrip bad) "SF:" = false →
      pyStartsWith (pyStrip bad) "DA:" = false →
      pyStartsWith (pyStrip bad) "FN:" = true →
      pySplit (pyDrop (pyStrip bad) 3) ',' 1 = [fnLineS, fnName] →
      pyInt fnLineS = Except.error (PyErr.valueError fnLineS) →
      parse_lcov (pre ++ bad :: post) = Except.error (PyErr.valueError fnLineS)) ∧
    (∀ (pre post : List String) (st : PState) (bad hitsS fnName : String),
      parseLines initState pre = Except.ok st →
      pyStartsWith (pyStrip bad) "TN:" = false →
      pyStartsWith (pyStrip bad) "SF:" = false →
      pyStartsWith (pyStrip bad) "DA:" = false →
      pyStartsWith (pyStrip bad) "FN:" = false →
      pyStartsWith (pyStrip bad) "FNDA:" = true →
      pySplit (pyDrop (pyStrip bad) 5) ',' 1 = [hitsS, fnName] →
      pyInt hitsS = Except.error (PyErr.valueError hitsS) →
      parse_lcov (pre ++ bad :: post) = Except.error (PyErr.valueError hitsS)) ∧
    (∀ (pre post : List String) (st : PState) (c : Record) (bad lS bS brS hitsS : String),
      parseLines initState pre = Except.ok st →
      pyStartsWith (pyStrip bad) "TN:" = false →
      pyStartsWith (pyStrip bad) "SF:" = false →
      pyStartsWith (pyStrip bad) "DA:" = false →
      pyStartsWith (pyStrip bad) "FN:" = false →
      pyStartsWith (pyStrip bad) "FNDA:" = false →
      pyStartsWith (pyStrip bad) "BRDA:" = true →
      pySplitAll (pyDrop (pyStrip bad) 5) ',' = [lS, bS, brS, hitsS] →
      st.cur = some c →
      pyInt lS = Except.error (PyErr.valueError lS) →
      parse_lcov (pre ++ bad :: post) = Except.error (PyErr.valueError lS)) ∧
    (∀ (pre post : List String) (st : PState) (c : Record) (bad lS bS brS hitsS : String)
        (l : Int),
      parseLines initState pre = Except.ok st →
      pyStartsWith (pyStrip bad) "TN:" = false →
      pyStartsWith (pyStrip bad) "SF:" = false →
      pyStartsWith (pyStrip bad) "DA:" = false →
      pyStartsWith (pyStrip bad) "FN:" = false →
      pyStartsWith (pyStrip bad) "FNDA:" = false →
      pyStartsWith (pyStrip bad) "BRDA:" = true →
      pySplitAll (pyDrop (pyStrip bad) 5) ',' = [lS, bS, brS, hitsS] →
      st.cur = some c →
      pyInt lS = Except.ok l →
      pyInt bS = Except.error (PyErr.valueError bS) →
      parse_lcov (pre ++ bad :: post) = Except.error (PyErr.valueError bS)) ∧
    (∀ (pre post : List String) (st : PState) (c : Record) (bad lS bS brS hitsS : String)
        (l b : Int),
      parseLines initState pre = Except.ok st →
      pyStartsWith (pyStrip bad) "TN:" = false →
      pyStartsWith (pyStrip bad) "SF:" = false →
      pyStartsWith (pyStrip bad) "DA:" = false →
      pyStartsWith (pyStrip bad) "FN:" = false →
      pyStartsWith (pyStrip bad) "FNDA:" = false →
      pyStartsWith (pyStrip bad) "BRDA:" = true →
      pySplitAll (pyDrop (pyStrip bad) 5) ',' = [lS, bS, brS, hitsS] →
      st.cur = some c →
      pyInt lS = Except.ok l →
      pyInt bS = Except.ok b →
      pyInt brS = Except.error (PyErr.valueError brS) →
      parse_lcov (pre ++ bad :: post) = Except.error (PyErr.valueError brS)) ∧
    (∀ (pre post : List String) (st : PState) (c : Record) (bad lS bS brS hitsS : String)
        (l b br : Int),
      parseLines initState pre = Except.ok st →
      pyStartsWith (pyStrip bad) "TN:" = false →
      pyStartsWith (pyStrip bad) "SF:" = false →
      pyStartsWith (pyStrip bad) "DA:" = false →
      pyStartsWith (pyStrip bad) "FN:" = false →
      pyStartsWith (pyStrip bad) "FNDA:" = false →
      pyStartsWith (pyStrip bad) "BRDA:" = true →
      pySplitAll (pyDrop (pyStrip bad) 5) ',' = [lS, bS, brS, hitsS] →
      st.cur = some c →
      pyInt lS = Except.ok l →
      pyInt bS = Except.ok b →
      pyInt brS = Except.ok br →
      hitsS ≠ "0" →
      hitsS ≠ "-" →
      pyInt hitsS = Except.error (PyErr.valueError hitsS) →
      parse_lcov (pre ++ bad :: post) = Except.error (PyErr.valueError hitsS)) := by
  refine ⟨?_, ?_, ?_, ?_, ?_, ?_, ?_, ?_⟩
  · intro pre post st bad hitsS hpre h1 h2 h3 hfield hmal
    refine parse_lcov_error_of_step pre post st bad _ hpre ?_
    unfold parseStep stepDA
    rw [h1, h2, h3, hfield]
    simp [hmal]
  · intro pre post st c bad hitsS lnS hits hpre h1 h2 h3 hfield hhits hcur hhead hmal
    refine parse_lcov_error_of_step pre post st bad _ hpre ?_
    unfold parseStep stepDA
    rw [h1, h2, h3, hfield, hhead]
    simp [hhits, hcur, hmal]
  · intro pre post st bad fnLineS fnName hpre h1 h2 h3 h4 hsplit hmal
    refine parse_lcov_error_of_step pre post st bad _ hpre ?_
    unfold parseStep stepFN
    rw [h1, h2, h3, h4, hsplit]
    simp [hmal]
  · intro pre post st bad hitsS fnName hpre h1 h2 h3 h4 h5 hsplit hmal
    refine parse_lcov_error_of_step pre post st bad _ hpre ?_
    unfold parseStep stepFNDA
    rw [h1, h2, h3, h4, h5, hsplit]
    simp [hmal]
  · intro pre post st c bad lS bS brS hitsS hpre h1 h2 h3 h4 h5 h6 hsplit hcur hmal
    refine parse_lcov_error_of_step pre post st bad _ hpre ?_
    unfold parseStep stepBRDA
    rw [h1, h2, h3, h4, h5, h6, hsplit]
    simp [hcur, hmal]
  · intro pre post st c bad lS bS brS hitsS l hpre h1 h2 h3 h4 h5 h6 hsplit hcur hl hmal
    refine parse_lcov_error_of_step pre post st bad _ hpre ?_
    unfold parseStep stepBRDA
    rw [h1, h2, h3, h4, h5, h6, hsplit]
    simp [hcur, hl, hmal]
  · intro pre post st c bad lS bS brS hitsS l b hpre h1 h2 h3 h4 h5 h6 hsplit hcur hl hb
      hmal
    refine parse_lcov_error_of_step pre post st bad _ hpre ?_
    unfold parseStep stepBRDA
    rw [h1, h2, h3, h4, h5, h6, hsplit]
    simp [hcur, hl, hb, hmal]
  · intro pre post st c bad lS bS brS hitsS l b br hpre h1 h2 h3 h4 h5 h6 hsplit hcur hl
      hb hbr hne0 hnedash hmal
    refine parse_lcov_error_of_step pre post st bad _ hpre ?_
    unfold parseStep stepBRDA
    rw [h1, h2, h3, h4, h5, h6, hsplit]
    simp [hcur, hl, hb, hbr, hne0, hnedash, hmal]

/-- Witness for C3: one malformed numeric field per recognized tag and
position, each aborting the whole parse with the offending literal. -/
theorem parse_lcov_malformed_field_witness :
    (parse_lcov ["SF:a.c", "DA:1,xy"] = Except.error (PyErr.valueError "xy")) ∧
    (parse_lcov ["SF:a.c", "DA:zz,1"] = Except.error (PyErr.valueError "zz")) ∧
    (parse_lcov ["SF:a.c", "FN:zz,foo"] = Except.error (PyErr.valueError "zz")) ∧
    (parse_lcov ["SF:a.c", "FNDA:xy,foo"] = Except.error (PyErr.valueError "xy")) ∧
    (parse_lcov ["SF:a.c", "BRDA:zz,0,0,1"] = Except.error (PyErr.valueError "zz")) ∧
    (parse_lcov ["SF:a.c", "BRDA:1,zz,0,1"] = Except.error (PyErr.valueError "zz")) ∧
    (parse_lcov ["SF:a.c", "BRDA:1,0,zz,1"] = Except.error (PyErr.valueError "zz")) ∧
    (parse_lcov ["SF:a.c", "BRDA:1,0,0,zz"] = Except.error (PyErr.valueError "zz")) := by
  have hpre : parseLines initState ["SF:a.c"] = Except.ok
      { files := [], cur := some (newRecord "a.c") } := by rfl
  refine ⟨?_, ?_, ?_, ?_, ?_, ?_, ?_, ?_⟩
  · exact parse_lcov_malformed_field.1 ["SF:a.c"] [] _ "DA:1,xy" "xy" hpre
      (by decide) (by decide) (by decide) (by decide) rfl
  · exact parse_lcov_malformed_field.2.1 ["SF:a.c"] [] _ (newRecord "a.c")
      "DA:zz,1" "1" "zz" 1 hpre
      (by decide) (by decide) (by decide) (by decide) rfl rfl (by decide) rfl
  · exact parse_lcov_malformed_field.2.2.1 ["SF:a.c"] [] _ "FN:zz,foo" "zz" "foo" hpre
      (by decide) (by decide) (by decide) (by decide) (by decide) rfl
  · exact parse_lcov_malformed_field.2.2.2.1 ["SF:a.c"] [] _ "FNDA:xy,foo" "xy" "foo" hpre
      (by decide) (by decide) (by decide) (by decide) (by decide) (by decide) rfl
  · exact parse_lcov_malformed_field.2.2.2.2.1 ["SF:a.c"] [] _ (newRecord "a.c")
      "BRDA:zz,0,0,1" "zz" "0" "0" "1" hpre
      (by decide) (by decide) (by decide) (by decide) (by decide) (by decide) (by decide)
      rfl rfl
  · exact parse_lcov_malformed_field.2.2.2.2.2.1 ["SF:a.c"] [] _ (newRecord "a.c")
      "BRDA:1,zz,0,1" "1" "zz" "0" "1" 1 hpre
      (by decide) (by decide) (by decide) (by decide) (by decide) (by decide) (by decide)
      rfl rfl rfl
  · exact parse_lcov_malformed_field.2.2.2.2.2.2.1 ["SF:a.c"] [] _ (newRecord "a.c")
      "BRDA:1,0,zz,1" "1" "0" "zz" "1" 1 0 hpre
      (by decide) (by decide) (by decide) (by decide) (by decide) (by decide) (by decide)
      rfl rfl rfl rfl
  · exact parse_lcov_malformed_field.2.2.2.2.2.2.2 ["SF:a.c"] [] _ (newRecord "a.c")
      "BRDA:1,0,0,zz" "1" "0" "0" "zz" 1 0 0 hpre
      (by decide) (by decide) (by decide) (by decide) (by decide) (by decide) (by decide)
      rfl rfl rfl rfl (by decide) (by decide) rfl

/-- C4 (as written) is false: a recognized field line with no record open is
not ignored — the parse aborts.  Concretely, a report consisting of the
single well-formed line `DA:1,1` (no `SF:` before it) makes `parse_lcov`
raise the TypeError of subscripting `None`, instead of completing without
error. -/
theorem stray_field_counterexample :
    parse_lcov ["DA:1,1"] = Except.error PyErr.typeError := by rfl

/-- C4 (amended): a recognized field line reached while no record is open
aborts the whole parse instead of being ignored — with the TypeError of
subscripting `None` for `DA:` (once its hit-count field parsed), `FNDA:`
(once its hit-count field parsed) and `BRDA:` (before any numeric field is
parsed), and with the AttributeError of `None.setdefault` for `FN:` (once
its line field parsed); parsing does not complete. -/
theorem parse_lcov_stray_field :
    (∀ (pre post : List String) (st : PState) (bad hitsS : String) (hits : Int),
      parseLines initState pre = Except.ok st →
      st.cur = none →
      pyStartsWith (pyStrip bad) "TN:" = false →
      pyStartsWith (pyStrip bad) "SF:" = false →
      pyStartsWith (pyStrip bad) "DA:" = true →
      (pySplit (pyDrop (pyStrip bad) 3) ',' 2)[1]? = some hitsS →
      pyInt hitsS = Except.ok hits →
      parse_lcov (pre ++ bad :: post) = Except.error PyErr.typeError) ∧
    (∀ (pre post : List String) (st : PState) (bad fnLineS fnName : String) (v : Int),
      parseLines initState pre = Except.ok st →
      st.cur = none →
      pyStartsWith (pyStrip bad) "TN:" = false →
      pyStartsWith (pyStrip bad) "SF:" = false →
      pyStartsWith (pyStrip bad) "DA:" = false →
      pyStartsWith (pyStrip bad) "FN:" = true →
      pySplit (pyDrop (pyStrip bad) 3) ',' 1 = [fnLineS, fnName] →
      pyInt fnLineS = Except.ok v →
      parse_lcov (pre ++ bad :: post) = Except.error PyErr.attributeError) ∧
    (∀ (pre post : List String) (st : PState) (bad hitsS fnName : String) (v : Int),
      parseLines initState pre = Except.ok st →
      st.cur = none →
      pyStartsWith (pyStrip bad) "TN:" = false →
      pyStartsWith (pyStrip bad) "SF:" = false →
      pyStartsWith (pyStrip bad) "DA:" = false →
      pyStartsWith (pyStrip bad) "FN:" = false →
      pyStartsWith (pyStrip bad) "FNDA:" = true →
      pySplit (pyDrop (pyStrip bad) 5) ',' 1 = [hitsS, fnName] →
      pyInt hitsS = Except.ok v →
      parse_lcov (pre ++ bad :: post) = Except.error PyErr.typeError) ∧
    (∀ (pre post : List String) (st : PState) (bad lS bS brS hitsS : String),
      parseLines initState pre = Except.ok st →
      st.cur = none →
      pyStartsWith (pyStrip bad) "TN:" = false →
      pyStartsWith (pyStrip bad) "SF:" = false →
      pyStartsWith (pyStrip bad) "DA:" = false →
      pyStartsWith (pyStrip bad) "FN:" = false →
      pyStartsWith (pyStrip bad) "FNDA:" = false →
      pyStartsWith (pyStrip bad) "BRDA:" = true →
      pySplitAll (pyDrop (pyStrip bad) 5) ',' = [lS, bS, brS, hitsS] →
      parse_lcov (pre ++ bad :: post) = Except.error PyErr.typeError) := by
  refine ⟨?_, ?_, ?_, ?_⟩
  · intro pre post st bad hitsS hits hpre hcur h1 h2 h3 hfield hok
    refine parse_lcov_error_of_step pre post st bad _ hpre ?_
    unfold parseStep stepDA
    rw [h1, h2, h3, hfield]
    simp [hok, hcur]
  · intro pre post st bad fnLineS fnName v hpre hcur h1 h2 h3 h4 hsplit hok
    refine parse_lcov_error_of_step pre post st bad _ hpre ?_
    unfold parseStep stepFN
    rw [h1, h2, h3, h4, hsplit]
    simp [hok, hcur]
  · intro pre post st bad hitsS fnName v hpre hcur h1 h2 h3 h4 h5 hsplit hok
    refine parse_lcov_error_of_step pre post st bad _ hpre ?_
    unfold parseStep stepFNDA
    rw [h1, h2, h3, h4, h5, hsplit]
    simp [hok, hcur]
  · intro pre post st bad lS bS brS hitsS hpre hcur h1 h2 h3 h4 h5 h6 hsplit
    refine parse_lcov_error_of_step pre post st bad _ hpre ?_
    unfold parseStep stepBRDA
    rw [h1, h2, h3, h4, h5, h6, hsplit]
    simp [hcur]

/-- Witness for the amended C4: one stray line of each recognized field tag
after a closed record, with its per-tag exception. -/
theorem parse_lcov_stray_field_witness :
    (parse_lcov ["SF:a.c", "end_of_record", "DA:1,1"]
      = Except.error PyErr.typeError) ∧
    (parse_lcov ["SF:a.c", "end_of_record", "FN:1,foo"]
      = Except.error PyErr.attributeError) ∧
    (parse_lcov ["SF:a.c", "end_of_record", "FNDA:1,foo"]
      = Except.error PyErr.typeError) ∧
    (parse_lcov ["SF:a.c", "end_of_record", "BRDA:1,0,0,-"]
      = Except.error PyErr.typeError) := by
  have hpre : parseLines initState ["SF:a.c", "end_of_record"] = Except.ok
      { files := [newRecord "a.c"], cur := none } := by rfl
  refine ⟨?_, ?_, ?_, ?_⟩
  · exact parse_lcov_stray_field.1 ["SF:a.c", "end_of_record"] [] _ "DA:1,1" "1" 1 hpre
      rfl (by decide) (by decide) (by decide) (by decide) rfl
  · exact parse_lcov_stray_field.2.1 ["SF:a.c", "end_of_record"] [] _ "FN:1,foo" "1" "foo"
      1 hpre rfl (by decide) (by decide) (by decide) (by decide) (by decide) rfl
  · exact parse_lcov_stray_field.2.2.1 ["SF:a.c", "end_of_record"] [] _ "FNDA:1,foo" "1"
      "foo" 1 hpre rfl (by decide) (by decide) (by decide) (by decide) (by decide)
      (by decide) rfl
  · exact parse_lcov_stray_field.2.2.2 ["SF:a.c", "end_of_record"] [] _ "BRDA:1,0,0,-"
      "1" "0" "0" "-" hpre rfl (by decide) (by decide) (by decide) (by decide) (by decide)
      (by decide) (by decide)

/-- The `uncovered_branches` append-loop is the order-preserving filter of
the zero-hit observations (generalized over the loop accumulator). -/
theorem uncoveredBranchesOf_aux (branches : List Branch) : ∀ acc,
    branches.foldl (fun acc br => if br.hits = 0 then acc ++ [(br.line, br.branch)] else acc) acc
      = acc ++ branches.filterMap
          (fun br => if br.hits = 0 then some (br.line, br.branch) else none) := by
  induction branches with
  | nil => intro acc; simp
  | cons br l ih => intro acc; by_cases h : br.hits = 0 <;> simp [h, ih]

theorem uncoveredBranchesOf_eq (branches : List Branch) :
    uncoveredBranchesOf branches
      = branches.filterMap
          (fun br => if br.hits = 0 then some (br.line, br.branch) else none) := by
  have h := uncoveredBranchesOf_aux branches []
  simpa [uncoveredBranchesOf] using h

/-- The `unexec_funcs` append-loop is the order-preserving filter of the
zero-hit functions, each paired with its `fn_defs` lookup. -/
theorem unexecFuncsOf_aux (f : Record) : ∀ (l : List (String × Int)) (acc : List UnexecFunc),
    l.foldl (fun acc p =>
        if p.2 = 0 then acc ++ [{ name := p.1, line := dictGet f.fn_defs p.1 }] else acc) acc
      = acc ++ l.filterMap (fun p =>
          if p.2 = 0 then some { name := p.1, line := dictGet f.fn_defs p.1 } else none) := by
  intro l
  induction l with
  | nil => intro acc; simp
  | cons p l ih => intro acc; by_cases h : p.2 = 0 <;> simp [h, ih]

theorem unexecFuncsOf_eq (f : Record) :
    unexecFuncsOf f = f.functions.filterMap (fun p =>
      if p.2 = 0 then some { name := p.1, line := dictGet f.fn_defs p.1 } else none) := by
  have h := unexecFuncsOf_aux f f.functions []
  simpa [unexecFuncsOf] using h

/-- The range-snippet loop is a `map` over the ranges. -/
theorem snippetRanges_aux (code : Option (List String)) (C : Int) :
    ∀ (ranges : List (Int × Int)) (acc : List Snippet),
    ranges.foldl (fun acc r => acc ++ [Snippet.lines r (slice_around code C r.1 r.2)]) acc
      = acc ++ ranges.map (fun r => Snippet.lines r (slice_around code C r.1 r.2)) := by
  intro ranges
  induction ranges with
  | nil => intro acc; simp
  | cons r l ih => intro acc; simp [ih]

/-- The function-snippet loop is the order-preserving filter of the
unexecuted functions with a truthy line. -/
theorem snippetFuncs_aux (code : Option (List String)) (C : Int) :
    ∀ (ufs : List UnexecFunc) (acc : List Snippet),
    ufs.foldl (fun acc uf =>
        if pyTruthy uf.line then
          acc ++ [Snippet.function uf.name (uf.line.getD 0)
                    (slice_around code C (uf.line.getD 0) (uf.line.getD 0 + 1))]
        else acc) acc
      = acc ++ ufs.filterMap (fun uf =>
          if pyTruthy uf.line then
            some (Snippet.function uf.name (uf.line.getD 0)
                    (slice_around code C (uf.line.getD 0) (uf.line.getD 0 + 1)))
          else none) := by
  intro ufs
  induction ufs with
  | nil => intro acc; simp
  | cons uf l ih => intro acc; by_cases h : pyTruthy uf.line <;> simp [h, ih]

theorem snippetsOf_eq (code : Option (List String)) (C : Int)
    (ranges : List (Int × Int)) (ufs : List UnexecFunc) :
    snippetsOf code C ranges ufs
      = ranges.map (fun r => Snippet.lines r (slice_around code C r.1 r.2))
        ++ ufs.filterMap (fun uf =>
            if pyTruthy uf.line then
              some (Snippet.function uf.name (uf.line.getD 0)
                      (slice_around code C (uf.line.getD 0) (uf.line.getD 0 + 1)))
            else none) := by
  unfold snippetsOf
  rw [snippetRanges_aux code C ranges [], snippetFuncs_aux code C ufs []]
  simp

/-- C5: a `BRDA:` observation whose hits field is `-` or `0` is stored with
hit count integer `0`, and a stored observation appears in
`uncovered_branches` as its `(line, branch)` pair (block index dropped,
report order preserved) exactly when its normalized hit count is `0`. -/
theorem brda_normalization :
    (∀ (st : PState) (c : Record) (raw lS bS brS hitsS : String) (l b br : Int),
      st.cur = some c →
      pyStartsWith (pyStrip raw) "TN:" = false →
      pyStartsWith (pyStrip raw) "SF:" = false →
      pyStartsWith (pyStrip raw) "DA:" = false →
      pyStartsWith (pyStrip raw) "FN:" = false →
      pyStartsWith (pyStrip raw) "FNDA:" = false →
      pyStartsWith (pyStrip raw) "BRDA:" = true →
      pySplitAll (pyDrop (pyStrip raw) 5) ',' = [lS, bS, brS, hitsS] →
      pyInt lS = Except.ok l → pyInt bS = Except.ok b → pyInt brS = Except.ok br →
      (hitsS = "0" ∨ hitsS = "-") →
      parseStep st raw = Except.ok { st with cur := some { c with
        branches := c.branches ++ [{ line := l, block := b, branch := br, hits := 0 }] } }) ∧
    (∀ (fs : String → Option (List String)) (root : String) (C : Int) (f : Record),
      (buildPayload fs root C f).uncovered_branches
        = f.branches.filterMap
            (fun br => if br.hits = 0 then some (br.line, br.branch) else none)) ∧
    (∀ (fs : String → Option (List String)) (root : String) (C : Int) (f : Record)
        (p : Int × Int),
      p ∈ (buildPayload fs root C f).uncovered_branches ↔
        ∃ obs ∈ f.branches, obs.hits = 0 ∧ p = (obs.line, obs.branch)) := by
  have hbr : ∀ (fs : String → Option (List String)) (root : String) (C : Int) (f : Record),
      (buildPayload fs root C f).uncovered_branches
        = f.branches.filterMap
            (fun br => if br.hits = 0 then some (br.line, br.branch) else none) := by
    intro fs root C f
    simp [buildPayload, uncoveredBranchesOf_eq]
  refine ⟨?_, hbr, ?_⟩
  · intro st c raw lS bS brS hitsS l b br hcur h1 h2 h3 h4 h5 h6 hsplit hl hb hbrr hhits
    unfold parseStep stepBRDA
    rw [h1, h2, h3, h4, h5, h6, hsplit]
    rcases hhits with h | h <;>
      simp [h, hcur, hl, hb, hbrr]
  · intro fs root C f p
    rw [hbr fs root C f]
    rw [List.mem_filterMap]
    constructor
    · rintro ⟨obs, hobs, heq⟩
      by_cases h : obs.hits = 0
      · rw [if_pos h] at heq
        cases heq
        exact ⟨obs, hobs, h, rfl⟩
      · rw [if_neg h] at heq
        cases heq
    · rintro ⟨obs, hobs, h0, hp⟩
      exact ⟨obs, hobs, by rw [if_pos h0, hp]⟩

/-- Witness for C5: `BRDA:10,0,0,-` is stored as hit count `0` and appears
in `uncovered_branches` as `(10, 0)`; `BRDA:10,0,1,3` does not appear. -/
theorem brda_normalization_witness :
    (parseStep { files := [], cur := some (newRecord "a.c") } "BRDA:10,0,0,-"
      = Except.ok { files := [], cur := some { newRecord "a.c" with
          branches := [{ line := 10, block := 0, branch := 0, hits := 0 }] } }) ∧
    ((10, 0) ∈ (buildPayload (fun _ => none) "." 40
        { file := "a.c", lines := [], functions := [], fn_defs := [],
          branches := [{ line := 10, block := 0, branch := 0, hits := 0 },
                       { line := 10, block := 0, branch := 1, hits := 3 }] }).uncovered_branches) ∧
    ¬((10, 1) ∈ (buildPayload (fun _ => none) "." 40
        { file := "a.c", lines := [], functions := [], fn_defs := [],
          branches := [{ line := 10, block := 0, branch := 0, hits := 0 },
                       { line := 10, block := 0, branch := 1, hits := 3 }] }).uncovered_branches) := by
  refine ⟨?_, ?_, ?_⟩
  · exact brda_normalization.1 _ (newRecord "a.c") "BRDA:10,0,0,-" "10" "0" "0" "-"
      10 0 0 rfl (by decide) (by decide) (by decide) (by decide) (by decide) (by decide)
      (by decide) rfl rfl rfl (Or.inr rfl)
  · exact (brda_normalization.2.2 _ _ _ _ _).mpr
      ⟨{ line := 10, block := 0, branch := 0, hits := 0 }, List.mem_cons_self _ _, rfl, rfl⟩
  · intro hmem
    have h := (brda_normalization.2.2 _ _ _ _ _).mp hmem
    rcases h with ⟨obs, hobs, h0, hp⟩
    simp at hobs
    rcases hobs with h | h <;> subst h <;> simp_all

/-- No `function`-type snippet is emitted for a name whose `fn_defs` lookup
is falsy (`None` or `0`): shared mechanism behind C6 and C10. -/
theorem no_function_snippet_of_falsy (fs : String → Option (List String))
    (root : String) (C : Int) (f : Record) (name : String)
    (hdef : pyTruthy (dictGet f.fn_defs name) = false) :
    ∀ s ∈ (buildPayload fs root C f).snippets, ∀ ln code,
      s ≠ Snippet.function name ln code := by
  intro s hs ln code heq
  subst heq
  have hsn : (buildPayload fs root C f).snippets
      = snippetsOf (fs (pyJoin root f.file)) C
          (merge_ranges (uncoveredLinesOf f)) (unexecFuncsOf f) := by
    simp [buildPayload]
  rw [hsn, snippetsOf_eq, List.mem_append] at hs
  rcases hs with hs | hs
  · rw [List.mem_map] at hs
    rcases hs with ⟨r, _, hr⟩
    cases hr
  · rw [List.mem_filterMap] at hs
    rcases hs with ⟨uf, hmem, hval⟩
    by_cases ht : pyTruthy uf.line
    · rw [if_pos ht] at hval
      have hname : uf.name = name := by
        injection hval with h
        injection h
      rw [unexecFuncsOf_eq, List.mem_filterMap] at hmem
      rcases hmem with ⟨p, _, hpv⟩
      by_cases h0 : p.2 = 0
      · rw [if_pos h0] at hpv
        injection hpv with hpv
        have hline : uf.line = dictGet f.fn_defs name := by
          rw [← hpv] at hname ⊢
          simp at hname ⊢
          rw [hname]
        rw [hline, hdef] at ht
        cases ht
      · rw [if_neg h0] at hpv
        cases hpv
    · rw [if_neg ht] at hval
      cases hval

/-- C6: a record with `FNDA:0,foo` and no matching `FN:` entry lists `foo` in
`unexecuted_functions` with an absent (`None`) line, and the snippets list
contains no `function`-type snippet for `foo`. -/
theorem fnda_without_fn (fs : String → Option (List String)) (root : String)
    (C : Int) (f : Record) (name : String)
    (hfun : (name, (0 : Int)) ∈ f.functions)
    (hdef : dictGet f.fn_defs name = none) :
    (({ name := name, line := none } : UnexecFunc)
        ∈ (buildPayload fs root C f).unexecuted_functions) ∧
    (∀ s ∈ (buildPayload fs root C f).snippets, ∀ ln code,
      s ≠ Snippet.function name ln code) := by
  constructor
  · have hue : (buildPayload fs root C f).unexecuted_functions = unexecFuncsOf f := by
      simp [buildPayload]
    rw [hue, unexecFuncsOf_eq, List.mem_filterMap]
    refine ⟨(name, 0), hfun, ?_⟩
    simp [hdef]
  · exact no_function_snippet_of_falsy fs root C f name (by rw [hdef]; rfl)

/-- Witness for C6 on a concrete record parsed from
`SF:a.c / FNDA:0,foo / end_of_record`. -/
theorem fnda_without_fn_witness :
    (("foo", (0 : Int)) ∈
      ({ file := "a.c", lines := [], functions := [("foo", 0)], fn_defs := [],
         branches := [] } : Record).functions) ∧
    (dictGet ({ file := "a.c", lines := [], functions := [("foo", 0)],
                fn_defs := [], branches := [] } : Record).fn_defs "foo" = none) ∧
    (({ name := "foo", line := none } : UnexecFunc)
      ∈ (buildPayload (fun _ => none) "." 40
          { file := "a.c", lines := [], functions := [("foo", 0)], fn_defs := [],
            branches := [] }).unexecuted_functions) ∧
    (∀ s ∈ (buildPayload (fun _ => none) "." 40
          { file := "a.c", lines := [], functions := [("foo", 0)], fn_defs := [],
            branches := [] }).snippets, ∀ ln code,
      s ≠ Snippet.function "foo" ln code) := by
  have h := fnda_without_fn (fun _ => none) "." 40
    { file := "a.c", lines := [], functions := [("foo", 0)], fn_defs := [], branches := [] }
    "foo" (List.mem_cons_self _ _) rfl
  exact ⟨List.mem_cons_self _ _, rfl, h.1, h.2⟩

/-- C10: a record with both `FN:0,f` and `FNDA:0,f` lists `f` in
`unexecuted_functions` with line `0`, yet no `function`-type snippet is
produced for `f`, because the builder tests the recorded line for Python
truthiness (`if uf['line']:`) rather than for presence, and `0` is falsy. -/
theorem fn_line_zero_no_snippet (fs : String → Option (List String)) (root : String)
    (C : Int) (f : Record) (name : String)
    (hfun : (name, (0 : Int)) ∈ f.functions)
    (hdef : dictGet f.fn_defs name = some 0) :
    (({ name := name, line := some 0 } : UnexecFunc)
        ∈ (buildPayload fs root C f).unexecuted_functions) ∧
    (∀ s ∈ (buildPayload fs root C f).snippets, ∀ ln code,
      s ≠ Snippet.function name ln code) := by
  constructor
  · have hue : (buildPayload fs root C f).unexecuted_functions = unexecFuncsOf f := by
      simp [buildPayload]
    rw [hue, unexecFuncsOf_eq, List.mem_filterMap]
    refine ⟨(name, 0), hfun, ?_⟩
    simp [hdef]
  · exact no_function_snippet_of_falsy fs root C f name (by rw [hdef]; rfl)

/-- Witness for C10 on a concrete record parsed from
`SF:a.c / FN:0,f / FNDA:0,f / end_of_record`, with a readable source file. -/
theorem fn_line_zero_no_snippet_witness :
    (("f", (0 : Int)) ∈
      ({ file := "a.c", lines := [], functions := [("f", 0)], fn_defs := [("f", 0)],
         branches := [] } : Record).functions) ∧
    (dictGet ({ file := "a.c", lines := [], functions := [("f", 0)],
                fn_defs := [("f", 0)], branches := [] } : Record).fn_defs "f" = some 0) ∧
    (({ name := "f", line := some 0 } : UnexecFunc)
      ∈ (buildPayload (fun _ => some ["x\n", "y\n"]) "." 40
          { file := "a.c", lines := [], functions := [("f", 0)], fn_defs := [("f", 0)],
            branches := [] }).unexecuted_functions) ∧
    (∀ s ∈ (buildPayload (fun _ => some ["x\n", "y\n"]) "." 40
          { file := "a.c", lines := [], functions := [("f", 0)], fn_defs := [("f", 0)],
            branches := [] }).snippets, ∀ ln code,
      s ≠ Snippet.function "f" ln code) := by
  have h := fn_line_zero_no_snippet (fun _ => some ["x\n", "y\n"]) "." 40
    { file := "a.c", lines := [], functions := [("f", 0)], fn_defs := [("f", 0)],
      branches := [] }
    "f" (List.mem_cons_self _ _) rfl
  exact ⟨List.mem_cons_self _ _, rfl, h.1, h.2⟩

/-- The snippet text as the spec words it: the concatenated text of the
clipped 1-based inclusive window `[max(1, start − C), min(lastLine, end + C)]`
over the file's line list.  (Lines `A..B` of a 1-based list are
`drop (A − 1)` then `take (B − A + 1)`.)  This definition follows the spec,
not the code; C7 compares the two. -/
def specSnippet (code : List String) (C s e : Int) : String :=
  String.join ((code.drop ((max 1 (s - C) - 1).toNat)).take
    ((min (code.length : Int) (e + C) - max 1 (s - C) + 1).toNat))

/-- C7: for every readable source file and every 1-based target span
`[s, e]` with `s ≤ e`, and every non-negative context window `C`, the
extracted snippet equals the concatenated text of the clipped window
`[max(1, s − C), min(lastLine, e + C)]` of the file's lines. -/
theorem slice_around_spec (code : List String) (C s e : Int)
    (hC : 0 ≤ C) (hs : 1 ≤ s) (hse : s ≤ e) :
    slice_around (some code) C s e = specSnippet code C s e := by
  have hmatch : slice_around (some code) C s e
      = (if code = [] then ""
         else String.join (pySlice code (max 0 (s - 1 - C))
                (min (code.length : Int) (e + C)))) := rfl
  rw [hmatch]
  unfold specSnippet
  simp only [pySlice]
  by_cases hnil : code = []
  · subst hnil
    simp [String.join]
  · rw [if_neg hnil]
    have hlo : ¬(max 0 (s - 1 - C) < 0) := by omega
    have hhi' : 1 ≤ e + C := by omega
    have hhin : ¬(min ((code.length : Int)) (e + C) < 0) := by omega
    rw [if_neg hlo, if_neg hhin]
    have hBA : min ((code.length : Int)) (e + C)
        = min (min ((code.length : Int)) (e + C)) (code.length : Int) := by omega
    by_cases hlon : max 0 (s - 1 - C) ≤ (code.length : Int)
    · have ha : (min (max 0 (s - 1 - C)) ((code.length : Int))).toNat
          = (max 1 (s - C) - 1).toNat := by omega
      have hb : (min ((code.length : Int)) (e + C)
            - min (max 0 (s - 1 - C)) ((code.length : Int))).toNat
          = (min ((code.length : Int)) (e + C) - max 1 (s - C) + 1).toNat := by omega
      rw [← hBA, ha, hb]
    · have ha : (min (max 0 (s - 1 - C)) ((code.length : Int))).toNat = code.length := by
        omega
      have ha2 : code.length ≤ (max 1 (s - C) - 1).toNat := by omega
      rw [← hBA, ha]
      rw [List.drop_length, List.drop_eq_nil_of_le ha2]
      simp

/-- Witness for C7: context 40, span `[5, 5]`, a 10-line file — the snippet
is the whole file, lines 1..10. -/
theorem slice_around_spec_witness :
    ((0 : Int) ≤ 40 ∧ (1 : Int) ≤ 5 ∧ (5 : Int) ≤ 5) ∧
    slice_around (some ["1\n", "2\n", "3\n", "4\n", "5\n", "6\n", "7\n", "8\n", "9\n", "10\n"])
        40 5 5
      = specSnippet ["1\n", "2\n", "3\n", "4\n", "5\n", "6\n", "7\n", "8\n", "9\n", "10\n"]
        40 5 5 ∧
    slice_around (some ["1\n", "2\n", "3\n", "4\n", "5\n", "6\n", "7\n", "8\n", "9\n", "10\n"])
        40 5 5
      = "1\n2\n3\n4\n5\n6\n7\n8\n9\n10\n" := by
  refine ⟨by decide, ?_, by rfl⟩
  exact slice_around_spec _ 40 5 5 (by decide) (by decide) (by decide)

/-- C8: when a record's source file cannot be read, every snippet of that
record's payload has the empty string as its code, the payload still carries
the full coverage data (uncovered ranges, branches, functions), and payload
assembly still completes for the whole record list. -/
theorem source_unavailable (fs : String → Option (List String)) (root : String)
    (C : Int) (report : List String) (recs : List Record) (f : Record)
    (hok : parse_lcov report = Except.ok recs)
    (hf : f ∈ recs)
    (hun : fs (pyJoin root f.file) = none) :
    (llm_payload_from_lcov report fs root C
        = Except.ok (recs.map (buildPayload fs root C))) ∧
    (∀ s ∈ (buildPayload fs root C f).snippets, s.code = "") ∧
    ((buildPayload fs root C f).uncovered_ranges = merge_ranges (uncoveredLinesOf f)) ∧
    ((buildPayload fs root C f).uncovered_branches = uncoveredBranchesOf f.branches) ∧
    ((buildPayload fs root C f).unexecuted_functions = unexecFuncsOf f) := by
  refine ⟨?_, ?_, by simp [buildPayload], by simp [buildPayload], by simp [buildPayload]⟩
  · unfold llm_payload_from_lcov
    rw [hok]
    rfl
  · intro s hs
    have hsn : (buildPayload fs root C f).snippets
        = snippetsOf (fs (pyJoin root f.file)) C
            (merge_ranges (uncoveredLinesOf f)) (unexecFuncsOf f) := by
      simp [buildPayload]
    rw [hsn, hun, snippetsOf_eq, List.mem_append] at hs
    rcases hs with hs | hs
    · rw [List.mem_map] at hs
      rcases hs with ⟨r, _, hr⟩
      subst hr
      simp [Snippet.code, slice_around]
    · rw [List.mem_filterMap] at hs
      rcases hs with ⟨uf, _, hval⟩
      by_cases ht : pyTruthy uf.line
      · rw [if_pos ht] at hval
        cases hval
        simp [Snippet.code, slice_around]
      · rw [if_neg ht] at hval
        cases hval

/-- Witness for C8: a record whose source file is unreadable still yields its
coverage data, with empty snippet code. -/
theorem source_unavailable_witness :
    (parse_lcov ["SF:a.c", "DA:1,0", "end_of_record"] = Except.ok
      [{ file := "a.c", lines := [(1, 0)], functions := [], fn_defs := [], branches := [] }]) ∧
    ((fun _ : String => (none : Option (List String))) (pyJoin "." "a.c") = none) ∧
    (llm_payload_from_lcov ["SF:a.c", "DA:1,0", "end_of_record"]
        (fun _ => none) "." 40
      = Except.ok
          ([{ file := "a.c", lines := [(1, 0)], functions := [], fn_defs := [],
              branches := [] }].map (buildPayload (fun _ => none) "." 40))) ∧
    (∀ s ∈ (buildPayload (fun _ => none) "." 40
        { file := "a.c", lines := [(1, 0)], functions := [], fn_defs := [],
          branches := [] }).snippets, s.code = "") := by
  have hok : parse_lcov ["SF:a.c", "DA:1,0", "end_of_record"] = Except.ok
      [{ file := "a.c", lines := [(1, 0)], functions := [], fn_defs := [],
         branches := [] }] := by rfl
  have h := source_unavailable (fun _ => none) "." 40
    ["SF:a.c", "DA:1,0", "end_of_record"]
    [{ file := "a.c", lines := [(1, 0)], functions := [], fn_defs := [], branches := [] }]
    { file := "a.c", lines := [(1, 0)], functions := [], fn_defs := [], branches := [] }
    hok (List.mem_cons_self _ _) rfl
  exact ⟨hok, rfl, h.1, h.2.1⟩

/-- The `(line, hits)` pair a report line contributes to the open record's
`lines` dict, if it is a well-formed `DA:` line (mirrors the dispatch order
of `parseStep` and the field order of `stepDA`). -/
def daPairOf (raw : String) : Option (Int × Int) :=
  if pyStartsWith (pyStrip raw) "TN:" then none
  else if pyStartsWith (pyStrip raw) "SF:" then none
  else if pyStartsWith (pyStrip raw) "DA:" then
    match (pySplit (pyDrop (pyStrip raw) 3) ',' 2)[1]? with
    | none => none
    | some hitsS =>
      match pyInt hitsS with
      | Except.error _ => none
      | Except.ok hits =>
        match pyInt ((pySplit (pyDrop (pyStrip raw) 3) ',' 2).headD "") with
        | Except.error _ => none
        | Except.ok ln => some (ln, hits)
  else none

/-- A successful `FN:` step keeps `files` and the open record's `lines`. -/
theorem stepFN_lines (st : PState) (s : String) (st' : PState)
    (h : stepFN st s = Except.ok st') :
    st'.files = st.files ∧ st'.cur.map Record.lines = st.cur.map Record.lines := by
  unfold stepFN at h
  repeat' split at h
  all_goals cases h
  all_goals simp_all

/-- A successful `FNDA:` step keeps `files` and the open record's `lines`. -/
theorem stepFNDA_lines (st : PState) (rest : String) (st' : PState)
    (h : stepFNDA st rest = Except.ok st') :
    st'.files = st.files ∧ st'.cur.map Record.lines = st.cur.map Record.lines := by
  unfold stepFNDA at h
  repeat' split at h
  all_goals cases h
  all_goals simp_all

/-- A successful `BRDA:` step keeps `files` and the open record's `lines`. -/
theorem stepBRDA_lines (st : PState) (rest : String) (st' : PState)
    (h : stepBRDA st rest = Except.ok st') :
    st'.files = st.files ∧ st'.cur.map Record.lines = st.cur.map Record.lines := by
  unfold stepBRDA at h
  repeat' split at h
  all_goals cases h
  all_goals simp_all

/-- Effect of one successful step (neither `SF:` nor `end_of_record`) on the
open record's `lines` dict: a well-formed `DA:` line performs one dict
assignment, every other line leaves the dict alone. -/
theorem parseStep_lines (st : PState) (raw : String) (st' : PState)
    (hsf : pyStartsWith (pyStrip raw) "SF:" = false)
    (heor : ¬(pyStrip raw = "end_of_record"))
    (h : parseStep st raw = Except.ok st') :
    st'.files = st.files ∧
    st'.cur.map Record.lines
      = (match daPairOf raw with
         | none => st.cur.map Record.lines
         | some p => (st.cur.map Record.lines).map (fun d => dictInsert d p.1 p.2)) := by
  unfold parseStep at h
  unfold daPairOf
  split_ifs at h with h1 h2 h3 h4 h5 h6
  · cases h
    simp [h1]
  · rw [h2] at hsf
    cases hsf
  · rw [if_neg h1, if_neg h2, if_pos h3]
    unfold stepDA at h
    repeat' split at h
    all_goals cases h
    all_goals simp_all
  · rw [if_neg h1, if_neg h2, if_neg h3]
    exact stepFN_lines st _ st' h
  · rw [if_neg h1, if_neg h2, if_neg h3]
    exact stepFNDA_lines st _ st' h
  · rw [if_neg h1, if_neg h2, if_neg h3]
    exact stepBRDA_lines st _ st' h
  · cases h
    simp [h1, h2, h3]

/-- Running the loop over a body with no `SF:` and no `end_of_record` lines
keeps `files`, and folds exactly the well-formed `DA:` assignments of the
body, in order, into the open record's `lines` dict. -/
theorem parseLines_lines (body : List String) : ∀ st st',
    (∀ l ∈ body, pyStartsWith (pyStrip l) "SF:" = false ∧ pyStrip l ≠ "end_of_record") →
    parseLines st body = Except.ok st' →
    st'.files = st.files ∧
    st'.cur.map Record.lines
      = (st.cur.map Record.lines).map
          (fun d => (body.filterMap daPairOf).foldl (fun d p => dictInsert d p.1 p.2) d) := by
  induction body with
  | nil =>
    intro st st' _ h
    cases h
    refine ⟨rfl, ?_⟩
    cases st.cur <;> simp
  | cons raw rest ih =>
    intro st st' hb h
    have hbraw := hb raw (List.mem_cons_self _ _)
    have hbrest : ∀ l ∈ rest,
        pyStartsWith (pyStrip l) "SF:" = false ∧ pyStrip l ≠ "end_of_record" :=
      fun l hl => hb l (List.mem_cons_of_mem _ hl)
    unfold parseLines at h
    split at h
    · exact absurd h (by simp)
    · rename_i st1 hstep
      have h1 := parseStep_lines st raw st1 hbraw.1 hbraw.2 hstep
      have h2 := ih st1 st' hbrest h
      refine ⟨h2.1.trans h1.1, ?_⟩
      rw [h2.2, h1.2, List.filterMap_cons]
      cases hda : daPairOf raw <;> cases st.cur <;> simp [hda]

/-- `dictInsert` with a fresh key appends the pair. -/
theorem dictInsert_fresh {α β : Type} [DecidableEq α] :
    ∀ (d : List (α × β)) (k : α) (v : β), (∀ q ∈ d, q.1 ≠ k) →
    dictInsert d k v = d ++ [(k, v)] := by
  intro d
  induction d with
  | nil => intro k v _; rfl
  | cons q d ih =>
    intro k v hf
    unfold dictInsert
    rw [if_neg (hf q (List.mem_cons_self _ _))]
    rw [ih k v (fun q' hq' => hf q' (List.mem_cons_of_mem _ hq'))]
    simp

/-- Folding dict assignments with pairwise-distinct fresh keys appends the
pairs verbatim. -/
theorem foldl_dictInsert_nodup {α β : Type} [DecidableEq α] :
    ∀ (ps : List (α × β)) (d : List (α × β)),
    (∀ p ∈ ps, ∀ q ∈ d, q.1 ≠ p.1) → (ps.map Prod.fst).Nodup →
    ps.foldl (fun d p => dictInsert d p.1 p.2) d = d ++ ps := by
  intro ps
  induction ps with
  | nil => intro d _ _; simp
  | cons p ps ih =>
    intro d hfresh hnd
    rw [List.foldl_cons]
    rw [dictInsert_fresh d p.1 p.2 (fun q hq => hfresh p (List.mem_cons_self _ _) q hq)]
    rw [List.map_cons, List.nodup_cons] at hnd
    have hfresh' : ∀ p' ∈ ps, ∀ q ∈ d ++ [(p.1, p.2)], q.1 ≠ p'.1 := by
      intro p' hp' q hq
      rcases List.mem_append.mp hq with hq | hq
      · exact hfresh p' (List.mem_cons_of_mem _ hp') q hq
      · simp at hq
        subst hq
        intro hcontra
        exact hnd.1 (by rw [hcontra]; exact List.mem_map_of_mem Prod.fst hp')
    rw [ih (d ++ [(p.1, p.2)]) hfresh' hnd.2]
    simp

/-- Parsing one full section (`SF:` line, body, `end_of_record`) from a
state with no open record appends exactly one record, whose path is the
`SF:` path and whose `lines` dict is the fold of the body's well-formed
`DA:` assignments. -/
theorem parseSection (sfline p : String) (body : List String) (st st' : PState)
    (hcur : st.cur = none)
    (hsf : sfPath? sfline = some p)
    (hbody : ∀ l ∈ body, pyStartsWith (pyStrip l) "SF:" = false ∧ pyStrip l ≠ "end_of_record")
    (hok : parseLines st (sfline :: (body ++ ["end_of_record"])) = Except.ok st') :
    ∃ rec, st'.files = st.files ++ [rec] ∧ st'.cur = none ∧
      rec.file = p ∧
      rec.lines = (body.filterMap daPairOf).foldl (fun d q => dictInsert d q.1 q.2) [] := by
  have hstep1 : parseStep st sfline
      = Except.ok { files := st.files, cur := some (newRecord p) } := by
    unfold sfPath? at hsf
    split_ifs at hsf with h1 h2
    · cases hsf
      unfold parseStep
      rw [if_neg h1, if_pos h2, hcur]
      simp
  have hL : parseLines st (sfline :: (body ++ ["end_of_record"]))
      = (match parseStep st sfline with
         | Except.error e => Except.error e
         | Except.ok st1 => parseLines st1 (body ++ ["end_of_record"])) := rfl
  rw [hL, hstep1] at hok
  have hrun : parseLines { files := st.files, cur := some (newRecord p) }
      (body ++ ["end_of_record"]) = Except.ok st' := hok
  rw [parseLines_append] at hrun
  rcases hbodyrun : parseLines { files := st.files, cur := some (newRecord p) } body
    with e | stB
  · rw [hbodyrun] at hrun
    cases hrun
  · rw [hbodyrun] at hrun
    have hmid := parseLines_lines body _ stB hbody hbodyrun
    have heor : parseStep stB "end_of_record"
        = Except.ok { files := stB.files ++ stB.cur.toList, cur := none } := by
      unfold parseStep
      rfl
    unfold parseLines at hrun
    rw [heor] at hrun
    have hfin : st' = { files := stB.files ++ stB.cur.toList, cur := none } := by
      cases hrun
      rfl
    rcases hcurB : stB.cur with _ | rec
    · rw [hcurB] at hmid
      simp [newRecord] at hmid
    · have hmidf : stB.files = st.files := hmid.1
      have hrecl : rec.lines
          = (body.filterMap daPairOf).foldl (fun d q => dictInsert d q.1 q.2) [] := by
        have hml := hmid.2
        rw [hcurB] at hml
        simp [newRecord] at hml
        exact hml
      have hrecf : rec.file = p := by
        have hfiles := parseLines_files body _ stB hbodyrun
        have hsfb : body.filterMap sfPath? = [] := by
          rw [List.filterMap_eq_nil]
          intro l hl
          unfold sfPath?
          rw [(hbody l hl).1]
          simp
        rw [hmidf, hcurB, hsfb] at hfiles
        simp [newRecord] at hfiles
        exact hfiles
      refine ⟨rec, ?_, ?_, hrecf, hrecl⟩
      · rw [hfin, hmidf, hcurB]
        rfl
      · rw [hfin]

/-- Parsing a concatenation of full sections from a no-open-record state
appends one record per section, in order, each carrying its own section's
`DA:` fold (and nothing from any other section). -/
theorem parseSections : ∀ (sections : List (String × List String)) (st st' : PState),
    st.cur = none →
    (∀ sec ∈ sections, (∃ p, sfPath? sec.1 = some p) ∧
      ∀ l ∈ sec.2, pyStartsWith (pyStrip l) "SF:" = false ∧ pyStrip l ≠ "end_of_record") →
    parseLines st ((sections.map (fun sec => sec.1 :: (sec.2 ++ ["end_of_record"]))).flatten)
      = Except.ok st' →
    st'.cur = none ∧
    ∃ recs, st'.files = st.files ++ recs ∧
      List.Forall₂ (fun (sec : String × List String) (rec : Record) =>
          sfPath? sec.1 = some rec.file ∧
          rec.lines = (sec.2.filterMap daPairOf).foldl (fun d q => dictInsert d q.1 q.2) [])
        sections recs := by
  intro sections
  induction sections with
  | nil =>
    intro st st' hcur _ hok
    cases hok
    exact ⟨hcur, [], by simp, List.Forall₂.nil⟩
  | cons sec rest ih =>
    intro st st' hcur hsec hok
    rw [List.map_cons, List.flatten_cons, parseLines_append] at hok
    have hsechead := hsec sec (List.mem_cons_self _ _)
    rcases hsechead with ⟨⟨p, hp⟩, hbody⟩
    rcases hfirstrun : parseLines st (sec.1 :: (sec.2 ++ ["end_of_record"])) with e | stMid
    · rw [hfirstrun] at hok
      cases hok
    · rw [hfirstrun] at hok
      rcases parseSection sec.1 p sec.2 st stMid hcur hp hbody hfirstrun
        with ⟨rec, hfiles, hcurMid, hfile, hlines⟩
      rcases ih stMid st' hcurMid
          (fun s hs => hsec s (List.mem_cons_of_mem _ hs)) hok
        with ⟨hcur', recs', hfiles', hforall⟩
      refine ⟨hcur', rec :: recs', ?_, ?_⟩
      · rw [hfiles', hfiles]
        simp
      · refine List.Forall₂.cons ⟨?_, hlines⟩ hforall
        rw [hp, hfile]

/-- C9: for every well-formed report — any list of `SF:`-opened,
`end_of_record`-terminated sections — a successful parse yields one record
per section, in report order, and reading back each record's per-line
hit-count dict reproduces exactly that section's `DA:` data: the dict is the
fold of the section's well-formed `DA:` assignments in order, and when the
section's `DA:` line numbers are pairwise distinct it is literally the
section's `(line, hits)` pair list — same entries, no others, none from any
other section. -/
theorem parse_lcov_da_roundtrip (sections : List (String × List String))
    (recs : List Record)
    (hsec : ∀ sec ∈ sections, (∃ p, sfPath? sec.1 = some p) ∧
      ∀ l ∈ sec.2, pyStartsWith (pyStrip l) "SF:" = false ∧ pyStrip l ≠ "end_of_record")
    (hok : parse_lcov ((sections.map (fun sec => sec.1 :: (sec.2 ++ ["end_of_record"]))).flatten)
        = Except.ok recs) :
    List.Forall₂ (fun (sec : String × List String) (rec : Record) =>
        sfPath? sec.1 = some rec.file ∧
        rec.lines = (sec.2.filterMap daPairOf).foldl (fun d q => dictInsert d q.1 q.2) [] ∧
        (((sec.2.filterMap daPairOf).map Prod.fst).Nodup →
          rec.lines = sec.2.filterMap daPairOf))
      sections recs := by
  unfold parse_lcov at hok
  split at hok
  · exact absurd hok (by simp)
  · rename_i st hrun
    cases hok
    rcases parseSections sections initState st rfl hsec hrun
      with ⟨hcur', recs', hfiles', hforall⟩
    have hrecs : st.files ++ st.cur.toList = recs' := by
      rw [hfiles', hcur']
      simp [initState]
    rw [hrecs]
    refine hforall.imp ?_
    intro sec rec hr
    refine ⟨hr.1, hr.2, ?_⟩
    intro hnd
    rw [hr.2, foldl_dictInsert_nodup _ [] (by intro q hq r hr'; cases hr') hnd]
    rfl

/-- Witness for C9 on a two-section report, each section with its own `DA:`
data (the second also has a function line). -/
theorem parse_lcov_da_roundtrip_witness :
    (sfPath? "SF:a.c" = some "a.c" ∧ sfPath? "SF:b.c" = some "b.c") ∧
    (∃ recs, parse_lcov ["SF:a.c", "DA:2,3", "DA:1,0", "end_of_record",
                         "SF:b.c", "DA:7,1", "FNDA:1,g", "end_of_record"]
        = Except.ok recs ∧
      List.Forall₂ (fun (sec : String × List String) (rec : Record) =>
          sfPath? sec.1 = some rec.file ∧
          rec.lines = (sec.2.filterMap daPairOf).foldl (fun d q => dictInsert d q.1 q.2) [] ∧
          (((sec.2.filterMap daPairOf).map Prod.fst).Nodup →
            rec.lines = sec.2.filterMap daPairOf))
        [("SF:a.c", ["DA:2,3", "DA:1,0"]), ("SF:b.c", ["DA:7,1", "FNDA:1,g"])] recs) := by
  have hok : parse_lcov ((([("SF:a.c", ["DA:2,3", "DA:1,0"]),
        ("SF:b.c", ["DA:7,1", "FNDA:1,g"])].map
          (fun sec => sec.1 :: (sec.2 ++ ["end_of_record"])))).flatten)
      = Except.ok
        [{ file := "a.c", lines := [(2, 3), (1, 0)], functions := [], fn_defs := [],
           branches := [] },
         { file := "b.c", lines := [(7, 1)], functions := [("g", 1)], fn_defs := [],
           branches := [] }] := by rfl
  have hsec : ∀ sec ∈ [("SF:a.c", ["DA:2,3", "DA:1,0"]),
      ("SF:b.c", ["DA:7,1", "FNDA:1,g"])],
      (∃ p, sfPath? sec.1 = some p) ∧
      ∀ l ∈ sec.2, pyStartsWith (pyStrip l) "SF:" = false ∧ pyStrip l ≠ "end_of_record" := by
    intro sec hs
    rcases List.mem_cons.mp hs with h | h
    · subst h
      exact ⟨⟨"a.c", rfl⟩, by decide⟩
    · rcases List.mem_cons.mp h with h | h
      · subst h
        exact ⟨⟨"b.c", rfl⟩, by decide⟩
      · cases h
  exact ⟨⟨rfl, rfl⟩, _, hok,
    parse_lcov_da_roundtrip [("SF:a.c", ["DA:2,3", "DA:1,0"]),
      ("SF:b.c", ["DA:7,1", "FNDA:1,g"])] _ hsec hok⟩

end Cov2AI
